import Mathlib

/-! Verification of the skill-tools validator, packager and scaffolder. -/

/-- Finds the first occurrence of `sep` in `l`; returns the part before it and
the part after it.  Models the scanning done by Python's `str.split`.
`sep` is assumed nonempty (Python raises `ValueError` on an empty separator). -/
def splitFirst (sep : List Char) : List Char → Option (List Char × List Char)
  | [] => none
  | c :: rest =>
    if sep.isPrefixOf (c :: rest) then
      some ([], (c :: rest).drop sep.length)
    else
      (splitFirst sep rest).map fun p => (c :: p.1, p.2)

/-- Auxiliary for `pySplit`: split on at most `n` occurrences of `sep`. -/
def pySplitAux (sep : List Char) : List Char → Nat → List (List Char)
  | l, 0 => [l]
  | l, n + 1 =>
    match splitFirst sep l with
    | none => [l]
    | some (pre, post) => pre :: pySplitAux sep post n

/-- Model of Python `s.split(sep, maxsplit)` for a nonempty separator. -/
def pySplit (s sep : String) (maxsplit : Nat) : List String :=
  (pySplitAux sep.data s.data maxsplit).map String.mk

/-- Fuel-bounded occurrence counter; the fuel only bounds the number of
occurrences, which never exceeds the length of the scanned list. -/
def countOccAux (sep : List Char) : Nat → List Char → Nat
  | 0, _ => 0
  | fuel + 1, l =>
    match splitFirst sep l with
    | none => 0
    | some (_, post) => 1 + countOccAux sep fuel post

/-- Number of non-overlapping occurrences of `sep` in `l`, scanning left to
right: model of Python `str.count` for a nonempty separator. -/
def countOcc (sep l : List Char) : Nat :=
  countOccAux sep l.length l

/-- Model of Python `s.startswith(pre)`. -/
def pyStartsWith (s pre : String) : Bool :=
  pre.data.isPrefixOf s.data

/-- Model of Python `s.strip()`: remove leading and trailing whitespace.
(Restricted to the ASCII whitespace characters recognised by `Char.isWhitespace`;
the Python original also strips a few rarer ones, which none of the claims
exercise.) -/
def pyStrip (s : String) : String :=
  String.mk (((s.data.dropWhile Char.isWhitespace).reverse.dropWhile
    Char.isWhitespace).reverse)

/-- A fixed 1024-character string body used by concrete validation scenarios
(kept behind a definition so that proofs treat it as an opaque list). -/
def xs1024 : List Char := List.replicate 1024 'x'

/-- ASCII model of Python's per-character alphanumeric test (`str.isalnum`
tests every character; Python's version is Unicode-aware, the sources only
ever feed it ASCII). -/
def pyIsAlnumChar (c : Char) : Bool :=
  ('a' ≤ c && c ≤ 'z') || ('A' ≤ c && c ≤ 'Z') || ('0' ≤ c && c ≤ '9')

/-- Model of Python `s.isalnum()`: `True` iff `s` is nonempty and every
character is alphanumeric.  In particular it is `False` on the empty string. -/
def pyIsAlnum (l : List Char) : Bool :=
  !l.isEmpty && l.all pyIsAlnumChar

/-- Model of a chain of Python `s.replace(ch, '')` calls: delete every
occurrence of the characters in `rem`. -/
def removeChars (l : List Char) (rem : List Char) : List Char :=
  l.filter fun c => !rem.contains c

/-- Model of Python `s.replace(a, b)` for single characters. -/
def replaceC (a b : Char) (l : List Char) : List Char :=
  l.map fun c => if c = a then b else c

/-- ASCII model of Python's per-character lowercasing. -/
def pyLowerChar (c : Char) : Char :=
  if 'A' ≤ c && c ≤ 'Z' then Char.ofNat (c.toNat + 32) else c

/-- ASCII model of Python's per-character uppercasing. -/
def pyUpperChar (c : Char) : Char :=
  if 'a' ≤ c && c ≤ 'z' then Char.ofNat (c.toNat - 32) else c

/-- ASCII model of Python's per-character alphabetic test. -/
def pyIsAlphaChar (c : Char) : Bool :=
  ('a' ≤ c && c ≤ 'z') || ('A' ≤ c && c ≤ 'Z')

/-- Model of Python `s.lower()` (ASCII). -/
def pyLower (s : String) : String :=
  String.mk (s.data.map pyLowerChar)

/-- Worker for `pyTitle`; the flag records whether the previous character was
alphabetic. -/
def pyTitleGo : Bool → List Char → List Char
  | _, [] => []
  | prevAlpha, c :: rest =>
    (if pyIsAlphaChar c then
      (if prevAlpha then pyLowerChar c else pyUpperChar c)
    else c) :: pyTitleGo (pyIsAlphaChar c) rest

/-- Model of Python `s.title()` (ASCII): uppercase each letter that starts a
word, lowercase the rest. -/
def pyTitle (s : String) : String :=
  String.mk (pyTitleGo false s.data)

/-- A value in a parsed frontmatter mapping: validation only distinguishes
strings from everything else (`isinstance(v, str)`). -/
inductive YamlVal where
  | vStr (s : String)
  | vOther
deriving DecidableEq, Repr

/-- Result of the structured (YAML) parse of the frontmatter text:
a key/value mapping, or some non-mapping document (scalar, sequence, `None`). -/
inductive YamlDoc where
  | dict (entries : List (String × YamlVal))
  | nonDict
deriving DecidableEq, Repr

/-- Lookup in a parsed mapping.  Later entries shadow earlier ones, as in a
Python `dict` built by a YAML loader where the last duplicate key wins. -/
def pyLookup (fm : List (String × YamlVal)) (k : String) : Option YamlVal :=
  fm.foldl (fun acc p => if p.1 = k then some p.2 else acc) none

/-- The validator's accumulated findings: `errors` block packaging,
`warnings` are advisory.  Mirrors the two lists on `SkillValidator`. -/
structure ValidationResult where
  errors : List String
  warnings : List String
deriving DecidableEq, Repr

/-- `self.errors.append e` -/
def ValidationResult.addError (r : ValidationResult) (e : String) : ValidationResult :=
  ⟨r.errors ++ [e], r.warnings⟩

/-- `self.warnings.append w` -/
def ValidationResult.addWarning (r : ValidationResult) (w : String) : ValidationResult :=
  ⟨r.errors, r.warnings ++ [w]⟩

/-- A direct child of the `scripts` directory: its file name, whether it is a
regular file (`f.is_file()`), and whether the current user's execute bit is
set (`os.access(f, os.X_OK)`). -/
structure ScriptEntry where
  name : String
  isFile : Bool
  executable : Bool
deriving DecidableEq, Repr

/-- The filesystem facts about a skill directory that the validator reads:
the content of `SKILL.md` when it exists, existence of the `scripts` and
`references` subdirectories, and the direct children of `scripts`
(`scripts_dir.iterdir()` does not recurse). -/
structure SkillDir where
  skillMd : Option String
  scriptsExists : Bool
  referencesExists : Bool
  scriptsChildren : List ScriptEntry
deriving DecidableEq, Repr

/-- `SkillValidator._check_skill_md_exists` -/
def check_skill_md_exists (d : SkillDir) (r : ValidationResult) : ValidationResult :=
  match d.skillMd with
  | none => r.addError "Missing required SKILL.md file"
  | some _ => r

/-- The `name` field checks of `SkillValidator._validate_frontmatter`
(the if/elif chain on `frontmatter['name']`). -/
def name_field_check (fm : List (String × YamlVal)) (r : ValidationResult) :
    ValidationResult :=
  match pyLookup fm "name" with
  | none => r.addError "Frontmatter missing required \x27name\x27 field"
  | some (.vOther) => r.addError "\x27name\x27 must be a non-empty string"
  | some (.vStr name) =>
    if name = "" then
      r.addError "\x27name\x27 must be a non-empty string"
    else if name.length > 64 then
      r.addError ("\x27name\x27 too long (max 64 chars): " ++ toString name.length)
    else if !pyIsAlnum (removeChars name.data ['-', '_', '.']) then
      r.addError "\x27name\x27 must contain only letters, numbers, hyphens, underscores, dots"
    else r

/-- The `description` field checks of `SkillValidator._validate_frontmatter`. -/
def description_field_check (fm : List (String × YamlVal)) (r : ValidationResult) :
    ValidationResult :=
  match pyLookup fm "description" with
  | none => r.addError "Frontmatter missing required \x27description\x27 field"
  | some (.vOther) => r.addError "\x27description\x27 must be a non-empty string"
  | some (.vStr desc) =>
    if desc = "" then
      r.addError "\x27description\x27 must be a non-empty string"
    else if desc.length > 1024 then
      r.addError ("\x27description\x27 too long (max 1024 chars): " ++ toString desc.length)
    else if pyStartsWith desc "TODO:" then
      r.addWarning "Description still contains TODO placeholder"
    else r

/-- `SkillValidator._validate_frontmatter`.  The external YAML library
(`yaml.safe_load`) is not part of the repository, so it enters the model as
the `parse` argument: `.error e` models a raised `yaml.YAMLError` with
message `e`. -/
def validate_frontmatter (parse : String → Except String YamlDoc)
    (d : SkillDir) (r : ValidationResult) : ValidationResult :=
  match d.skillMd with
  | none => r
  | some content =>
    if !pyStartsWith content "---\n" then
      r.addError "SKILL.md must start with \x27---\x27 YAML frontmatter"
    else
      let parts := pySplit content "---\n" 2
      if parts.length < 3 then
        r.addError "SKILL.md frontmatter not properly closed with \x27---\x27"
      else
        let frontmatter_text := parts.getD 1 ""
        match parse frontmatter_text with
        | .error e => r.addError ("Invalid YAML in frontmatter: " ++ e)
        | .ok .nonDict => r.addError "Frontmatter must be a YAML object"
        | .ok (.dict frontmatter) =>
          let r := name_field_check frontmatter r
          let r := description_field_check frontmatter r
          let markdown_content := pyStrip (parts.getD 2 "")
          if markdown_content = "" then
            r.addWarning "SKILL.md has no content after frontmatter"
          else if pyStartsWith markdown_content "TODO:" then
            r.addWarning "SKILL.md content contains TODO placeholders"
          else r

/-- `SkillValidator._check_directory_structure` -/
def check_directory_structure (d : SkillDir) (r : ValidationResult) :
    ValidationResult :=
  let r := if !d.scriptsExists then r.addWarning "No scripts/ directory found" else r
  if !d.referencesExists then r.addWarning "No references/ directory found" else r

/-- `SkillValidator._validate_scripts` -/
def validate_scripts (d : SkillDir) (r : ValidationResult) : ValidationResult :=
  if !d.scriptsExists then r
  else
    let script_files := d.scriptsChildren.filter fun f => f.isFile
    if script_files.isEmpty then
      r.addWarning "scripts/ directory is empty"
    else
      script_files.foldl
        (fun r script =>
          if !script.executable then
            r.addWarning ("Script not executable: " ++ script.name)
          else r)
        r

/-- `SkillValidator.validate`: runs the checks in order and returns the
verdict together with the accumulated findings. -/
def validate (parse : String → Except String YamlDoc) (d : SkillDir) :
    Bool × ValidationResult :=
  let r := check_skill_md_exists d ⟨[], []⟩
  if !r.errors.isEmpty then (false, r)
  else
    let r := validate_frontmatter parse d r
    let r := check_directory_structure d r
    let r := validate_scripts d r
    (r.errors.isEmpty, r)

/-- An entry of the skill directory's recursive listing (`skill_path.rglob('*')`):
its path relative to the skill directory, as a nonempty list of segments, and
whether it is a regular file. -/
structure FsEntry where
  relPath : List String
  isFile : Bool
deriving DecidableEq, Repr

/-- `package_skill`: walk all entries under the skill directory, keep the
regular files, and store each under its path relative to the *parent* of the
skill directory, i.e. with the directory's own name prepended
(`file_path.relative_to(skill_path.parent)`).  The result is the list of
archive entry paths. -/
def package_skill (skillName : String) (entries : List FsEntry) :
    List (List String) :=
  (entries.filter fun e => e.isFile).map fun e => skillName :: e.relPath

/-- The decision core of the packager's `main` (after the path existence
checks): validate, and only on success build the archive; `none` models
`sys.exit(1)` before packaging. -/
def packager_main (parse : String → Except String YamlDoc) (d : SkillDir)
    (skillName : String) (entries : List FsEntry) : Option (List (List String)) :=
  if (validate parse d).1 then some (package_skill skillName entries) else none

/-- Split a character list on every newline (model of reading a text line by
line; a trailing newline yields a final empty line, which the line parser
skips as blank). -/
def splitOnNl : List Char → List (List Char)
  | [] => [[]]
  | c :: rest =>
    let r := splitOnNl rest
    if c = '\n' then [] :: r
    else
      match r with
      | [] => [[c]]
      | l :: ls => (c :: l) :: ls

/-- Model of the external YAML library (`yaml.safe_load`) on one line of a
single-level block mapping with plain scalars — the only YAML fragment these
tools emit.  A blank line is skipped; otherwise the line must be
`key: value`, and a plain (unquoted) scalar value containing a further
`": "` is the parse failure PyYAML reports as `mapping values are not
allowed here`. -/
def parseLine (line : List Char) : Except String (Option (String × YamlVal)) :=
  if line.all Char.isWhitespace then .ok none
  else
    match splitFirst [':', ' '] line with
    | none => .error "could not find expected \x27:\x27"
    | some (k, v) =>
      if (splitFirst [':', ' '] v).isSome then
        .error "mapping values are not allowed here"
      else
        .ok (some (String.mk k, .vStr (String.mk v)))

/-- Parse all lines of a frontmatter block; the first failing line aborts the
parse, as the external library raises at the first ill-formed token. -/
def miniYamlLines : List (List Char) → Except String (List (String × YamlVal))
  | [] => .ok []
  | line :: rest =>
    match parseLine line with
    | .error e => .error e
    | .ok none => miniYamlLines rest
    | .ok (some kv) => (miniYamlLines rest).map fun es => kv :: es

/-- Model of `yaml.safe_load` on the fragment of YAML the tools emit: an
all-blank document loads as `None` (not a mapping), otherwise a single-level
block mapping. -/
def miniYamlParse (s : String) : Except String YamlDoc :=
  match miniYamlLines (splitOnNl s.data) with
  | .error e => .error e
  | .ok [] => .ok .nonDict
  | .ok entries => .ok (.dict entries)

/-- The frontmatter block of `SKILL_MD_TEMPLATE` (the text between the two
delimiter lines), with the skill name substituted. -/
def skillMdHeader (name : String) : String :=
  "name: " ++ name ++
  "\ndescription: TODO: A clear description of what this skill does and when to use it\nlicense: MIT\n"

/-- The body of `SKILL_MD_TEMPLATE` (the text after the closing delimiter
line), with the display name substituted. -/
def skillMdBody (display_name : String) : String :=
  "\n# " ++ display_name ++
  "\n\nTODO: Add your instructions here that Claude will follow when this skill is active.\n\n## Purpose\n\nDescribe what this skill helps Claude accomplish.\n\n## When to Use\n\n- Trigger condition 1\n- Trigger condition 2\n- Trigger condition 3\n\n## Capabilities\n\n- Capability 1\n- Capability 2\n- Capability 3\n\n## Usage Examples\n\n### Example 1: Basic Usage\n\n```bash\n# Command or usage pattern\n```\n\n### Example 2: Advanced Usage\n\n```bash\n# More complex usage\n```\n\n## Guidelines\n\n- Guideline 1: Best practice\n- Guideline 2: Important consideration\n- Guideline 3: Common pitfall to avoid\n\n## References\n\nSee files in the `references/` directory for detailed documentation.\n"

/-- `SKILL_MD_TEMPLATE.format(name=..., display_name=...)` from `init_skill.py`. -/
def SKILL_MD_TEMPLATE (name display_name : String) : String :=
  "---\n" ++ skillMdHeader name ++ "---\n" ++ skillMdBody display_name

/-- `skill_name.replace('-', ' ').replace('_', ' ').title()` from
`create_skill_structure`. -/
def skillDisplayName (skill_name : String) : String :=
  pyTitle (String.mk (replaceC '_' ' ' (replaceC '-' ' ' skill_name.data)))

/-- The skill directory produced by `create_skill_structure` for the
(lowercased) scaffolder argument, as the validator later sees it:
`SKILL.md` from the template, existing `scripts` and `references`
directories, and one executable `scripts/example.sh`. -/
def scaffoldedSkillDir (skillNameArg : String) : SkillDir :=
  let skill_name := pyLower skillNameArg
  ⟨some (SKILL_MD_TEMPLATE skill_name (skillDisplayName skill_name)),
    true, true, [⟨"example.sh", true, true⟩]⟩

/-- Observable outcome of the scaffolder's `main`: exit code, and whether the
output directory, resp. the skill subtree inside it, were created. -/
structure ScaffoldOutcome where
  exitCode : Nat
  createdOutputDir : Bool
  createdSkillDir : Bool
deriving DecidableEq, Repr

/-- The scaffolder's `main`: lowercase the argument, reject it unless it is
alphanumeric after deleting hyphens and underscores (this happens before any
directory is created), then create the output directory and the skill
structure.  `ioError` models `create_skill_structure` raising, in which case
partially created directories may remain and the exit code is 1. -/
def scaffolderMain (skillNameArg : String) (ioError : Bool) : ScaffoldOutcome :=
  let skill_name := pyLower skillNameArg
  if !pyIsAlnum (removeChars skill_name.data ['-', '_']) then
    ⟨1, false, false⟩
  else if ioError then ⟨1, true, true⟩
  else ⟨0, true, true⟩

/-- The allowed-character set C5 and C9 speak about for the packager's `name`
field: letters, digits, hyphen, underscore, dot. -/
def allowedNameChar (c : Char) : Bool :=
  pyIsAlnumChar c || c = '-' || c = '_' || c = '.'

/-- The allowed-character set of the scaffolder's name check: letters,
digits, hyphen, underscore. -/
def allowedScaffoldChar (c : Char) : Bool :=
  pyIsAlnumChar c || c = '-' || c = '_'

deriving instance DecidableEq for Except

/-! ### Helper lemmas -/

theorem errors_addWarning (r : ValidationResult) (w : String) :
    (r.addWarning w).errors = r.errors := rfl

theorem warnings_addError (r : ValidationResult) (e : String) :
    (r.addError e).warnings = r.warnings := rfl

theorem scripts_foldl_spec (files : List ScriptEntry) (r : ValidationResult) :
    files.foldl
      (fun r script =>
        if !script.executable then
          r.addWarning ("Script not executable: " ++ script.name)
        else r) r =
    ⟨r.errors,
      r.warnings ++ (files.filter fun f => !f.executable).map
        (fun f => "Script not executable: " ++ f.name)⟩ := by
  induction files generalizing r with
  | nil => simp
  | cons f fs ih =>
    cases hf : f.executable
    · simp only [List.foldl_cons, List.filter_cons, hf, Bool.not_false, if_pos,
        List.map_cons]
      rw [ih]
      simp [ValidationResult.addWarning]
    · simp only [List.foldl_cons, List.filter_cons, hf, Bool.not_true,
        Bool.false_eq_true, if_false]
      exact ih r

theorem errors_validate_scripts (d : SkillDir) (r : ValidationResult) :
    (validate_scripts d r).errors = r.errors := by
  by_cases hs : d.scriptsExists
  · by_cases he : (d.scriptsChildren.filter fun f => f.isFile).isEmpty
    · simp [validate_scripts, hs, he, ValidationResult.addWarning]
    · simp only [validate_scripts, hs, he, Bool.not_true, Bool.false_eq_true,
        if_false, scripts_foldl_spec]
  · simp [validate_scripts, hs]

theorem warnings_validate_scripts_le (d : SkillDir) (r : ValidationResult) :
    r.warnings.length ≤ (validate_scripts d r).warnings.length := by
  by_cases hs : d.scriptsExists
  · by_cases he : (d.scriptsChildren.filter fun f => f.isFile).isEmpty
    · simp [validate_scripts, hs, he, ValidationResult.addWarning]
    · simp only [validate_scripts, hs, he, Bool.not_true, Bool.false_eq_true,
        if_false, scripts_foldl_spec]
      simp
  · simp [validate_scripts, hs]

theorem errors_check_directory_structure (d : SkillDir) (r : ValidationResult) :
    (check_directory_structure d r).errors = r.errors := by
  unfold check_directory_structure
  split <;> split <;> rfl

theorem warnings_check_directory_structure_le (d : SkillDir) (r : ValidationResult) :
    r.warnings.length ≤ (check_directory_structure d r).warnings.length := by
  unfold check_directory_structure
  split <;> split <;> simp [ValidationResult.addWarning]

theorem validate_of_skillMd (parse : String → Except String YamlDoc) (d : SkillDir)
    (content : String) (hmd : d.skillMd = some content) :
    validate parse d =
      (let r := validate_scripts d
        (check_directory_structure d (validate_frontmatter parse d ⟨[], []⟩));
      (r.errors.isEmpty, r)) := by
  simp [validate, check_skill_md_exists, hmd]

theorem splitFirst_of_isPrefixOf (sep l : List Char) (hl : l ≠ [])
    (h : sep.isPrefixOf l = true) :
    splitFirst sep l = some ([], l.drop sep.length) := by
  cases l with
  | nil => exact absurd rfl hl
  | cons c rest => simp [splitFirst, h]

theorem length_le_of_isPrefixOf {sep l : List Char} (h : sep.isPrefixOf l = true) :
    sep.length ≤ l.length := by
  rw [List.isPrefixOf_iff_prefix] at h
  exact h.length_le

theorem splitFirst_sep_append (sep r : List Char) (hs : sep ≠ []) :
    splitFirst sep (sep ++ r) = some ([], r) := by
  have hne : sep ++ r ≠ [] := by
    cases sep with
    | nil => exact absurd rfl hs
    | cons s ss => simp
  have hpre : sep.isPrefixOf (sep ++ r) = true := by
    rw [List.isPrefixOf_iff_prefix]
    exact List.prefix_append _ _
  rw [splitFirst_of_isPrefixOf sep (sep ++ r) hne hpre, List.drop_left]

theorem splitFirst_append_of_no_occ (sep u v : List Char)
    (h : ∀ i, i < u.length → sep.isPrefixOf (u.drop i ++ v) = false) :
    splitFirst sep (u ++ v) = (splitFirst sep v).map fun p => (u ++ p.1, p.2) := by
  induction u with
  | nil =>
    cases hv : splitFirst sep v <;> simp [hv]
  | cons c u' ih =>
    have h0 : sep.isPrefixOf (c :: (u' ++ v)) = false := by
      have h' := h 0 (by simp)
      simpa using h'
    rw [List.cons_append]
    simp only [splitFirst, h0, Bool.false_eq_true, if_false]
    rw [ih (fun i hi => by
      have h' := h (i + 1) (by simp only [List.length_cons]; omega)
      simpa using h')]
    cases hv : splitFirst sep v <;> simp

theorem isPrefixOf_append_left (sep l₁ l₂ : List Char) (h : sep.length ≤ l₁.length) :
    sep.isPrefixOf (l₁ ++ l₂) = sep.isPrefixOf l₁ := by
  induction sep generalizing l₁ with
  | nil => simp [List.isPrefixOf]
  | cons s ss ih =>
    cases l₁ with
    | nil => simp at h
    | cons a l₁' =>
      simp only [List.cons_append, List.isPrefixOf, List.append_eq]
      rw [ih l₁' (by simpa using h)]

theorem splitFirst_mem (sep l : List Char) (p : List Char × List Char)
    (h : splitFirst sep l = some p) : ∀ c ∈ sep, c ∈ l := by
  induction l generalizing p with
  | nil => simp [splitFirst] at h
  | cons a rest ih =>
    intro c hc
    by_cases hp : sep.isPrefixOf (a :: rest) = true
    · exact (List.isPrefixOf_iff_prefix.mp hp).subset hc
    · simp only [splitFirst, hp, Bool.false_eq_true, if_false] at h
      cases hq : splitFirst sep rest with
      | none =>
        rw [hq] at h
        simp at h
      | some q => exact List.mem_cons_of_mem a (ih q hq c hc)

theorem no_occ_of_first_char_notin (s : Char) (ss u v : List Char) (h : s ∉ u) :
    ∀ i, i < u.length → ((s :: ss).isPrefixOf (u.drop i ++ v)) = false := by
  intro i hi
  cases hd : u.drop i with
  | nil =>
    have hl := List.length_drop i u
    rw [hd] at hl
    simp at hl
    omega
  | cons c t =>
    have hcu : c ∈ u := by
      have hcd : c ∈ u.drop i := by
        rw [hd]
        exact List.mem_cons_self c t
      exact List.drop_subset i u hcd
    have hcs : s ≠ c := fun he => h (he ▸ hcu)
    rw [List.cons_append]
    simp only [List.isPrefixOf]
    rw [beq_eq_false_iff_ne.mpr hcs]
    simp

theorem no_delim_occ_of_newline (u w : List Char)
    (hnl : '\n' ∉ u) (hsuf : ¬(['-', '-', '-'] <:+ u)) :
    ∀ i, i < u.length →
      ((['-', '-', '-', '\n'] : List Char).isPrefixOf (u.drop i ++ '\n' :: w)) = false := by
  intro i hi
  have hfalse : (('-' : Char) == '\n') = false := by decide
  rcases hd : u.drop i with _ | ⟨c1, _ | ⟨c2, _ | ⟨c3, _ | ⟨c4, t⟩⟩⟩⟩
  · have hl := List.length_drop i u
    rw [hd] at hl
    simp at hl
    omega
  · simp [List.isPrefixOf, hfalse]
  · simp [List.isPrefixOf, hfalse]
  · rw [Bool.eq_false_iff]
    intro htrue
    simp only [List.cons_append, List.isPrefixOf, List.nil_append, Bool.and_eq_true,
      beq_iff_eq] at htrue
    obtain ⟨h1, h2, h3, -⟩ := htrue
    apply hsuf
    have hdrop : u.drop i <:+ u := List.drop_suffix i u
    rw [hd, ← h1, ← h2, ← h3] at hdrop
    exact hdrop
  · rw [Bool.eq_false_iff]
    intro htrue
    simp only [List.cons_append, List.isPrefixOf, Bool.and_eq_true, beq_iff_eq] at htrue
    obtain ⟨-, -, -, h4, -⟩ := htrue
    apply hnl
    have hc4 : c4 ∈ u.drop i := by
      rw [hd]
      simp
    rw [← h4] at hc4
    exact List.drop_subset i u hc4

theorem splitOnNl_append (u v : List Char) (h : '\n' ∉ u) :
    splitOnNl (u ++ '\n' :: v) = u :: splitOnNl v := by
  induction u with
  | nil => simp [splitOnNl]
  | cons c u' ih =>
    have hc : ¬c = '\n' := fun he => h (he ▸ List.mem_cons_self c u')
    have ih' := ih fun hm => h (List.mem_cons_of_mem c hm)
    rw [List.cons_append]
    simp only [splitOnNl, ih', hc, if_false]

theorem string_mk_data (s : String) : String.mk s.data = s := by
  cases s
  rfl

theorem pyStartsWith_prefix_append (p rest : String) :
    pyStartsWith (p ++ rest) p = true := by
  simp only [pyStartsWith, String.data_append]
  rw [List.isPrefixOf_iff_prefix]
  exact List.prefix_append _ _

theorem pySplit_delimited (fmtext body : String)
    (h : ∀ i, i < fmtext.data.length →
      (['-', '-', '-', '\n'] : List Char).isPrefixOf
        (fmtext.data.drop i ++ ('-' :: '-' :: '-' :: '\n' :: body.data)) = false) :
    pySplit ("---\n" ++ fmtext ++ "---\n" ++ body) "---\n" 2 = ["", fmtext, body] := by
  have hdata : "---\n".data = ['-', '-', '-', '\n'] := by decide
  have hcontent : ("---\n" ++ fmtext ++ "---\n" ++ body).data =
      ['-', '-', '-', '\n'] ++ (fmtext.data ++ (['-', '-', '-', '\n'] ++ body.data)) := by
    simp [String.data_append, hdata]
  have h1 : splitFirst ['-', '-', '-', '\n']
      (['-', '-', '-', '\n'] ++ (fmtext.data ++ (['-', '-', '-', '\n'] ++ body.data))) =
      some ([], fmtext.data ++ (['-', '-', '-', '\n'] ++ body.data)) :=
    splitFirst_sep_append _ _ (by decide)
  have h2 : splitFirst ['-', '-', '-', '\n']
      (fmtext.data ++ (['-', '-', '-', '\n'] ++ body.data)) =
      some (fmtext.data, body.data) := by
    rw [splitFirst_append_of_no_occ _ _ _ (fun i hi => by
        have h' := h i hi
        simpa using h'),
      splitFirst_sep_append _ _ (by decide)]
    simp
  simp only [pySplit, hdata, hcontent, pySplitAux, h1, h2]
  simp [string_mk_data]

theorem description_field_check_valid (fm : List (String × YamlVal))
    (r : ValidationResult) (dsc : String)
    (h : pyLookup fm "description" = some (.vStr dsc)) (h1 : dsc ≠ "")
    (h2 : ¬dsc.length > 1024) :
    (description_field_check fm r).errors = r.errors ∧
    r.warnings.length ≤ (description_field_check fm r).warnings.length := by
  simp only [description_field_check, h]
  rw [if_neg h1, if_neg h2]
  by_cases ht : pyStartsWith dsc "TODO:" = true
  · rw [if_pos ht]
    simp [ValidationResult.addWarning]
  · rw [if_neg ht]
    simp

theorem validate_frontmatter_dict (parse : String → Except String YamlDoc)
    (d : SkillDir) (r : ValidationResult) (content fmtext body : String)
    (fm : List (String × YamlVal))
    (hmd : d.skillMd = some content)
    (hstart : pyStartsWith content "---\n" = true)
    (hsplit : pySplit content "---\n" 2 = ["", fmtext, body])
    (hparse : parse fmtext = .ok (.dict fm)) :
    ∃ ws : List String,
      validate_frontmatter parse d r =
        ⟨(description_field_check fm (name_field_check fm r)).errors,
          (description_field_check fm (name_field_check fm r)).warnings ++ ws⟩ ∧
      (pyStrip body = "TODO:" → ws = ["SKILL.md content contains TODO placeholders"]) := by
  have hred : validate_frontmatter parse d r =
      (if pyStrip body = "" then
        (description_field_check fm (name_field_check fm r)).addWarning
          "SKILL.md has no content after frontmatter"
      else if pyStartsWith (pyStrip body) "TODO:" then
        (description_field_check fm (name_field_check fm r)).addWarning
          "SKILL.md content contains TODO placeholders"
      else description_field_check fm (name_field_check fm r)) := by
    simp [validate_frontmatter, hmd, hstart, hsplit, hparse]
  rw [hred]
  by_cases hb0 : pyStrip body = ""
  · refine ⟨["SKILL.md has no content after frontmatter"], ?_, ?_⟩
    · simp [hb0, ValidationResult.addWarning]
    · intro hb
      rw [hb] at hb0
      exact absurd hb0 (by decide)
  · by_cases hbt : pyStartsWith (pyStrip body) "TODO:" = true
    · refine ⟨["SKILL.md content contains TODO placeholders"], ?_, fun _ => rfl⟩
      simp [hb0, hbt, ValidationResult.addWarning]
    · refine ⟨[], ?_, ?_⟩
      · simp [hb0, hbt]
      · intro hb
        rw [hb] at hbt
        exact absurd (by decide) hbt

/-! ### Claim theorems -/

/-- C1: for every skill directory (and any behaviour of the external YAML
parser), `validate` returns `true` if and only if the accumulated error list
is empty after the full check sequence; the warnings play no role in the
verdict. -/
theorem C1_validate_true_iff_errors_empty (parse : String → Except String YamlDoc)
    (d : SkillDir) :
    (validate parse d).1 = true ↔ (validate parse d).2.errors = [] := by
  by_cases h : (check_skill_md_exists d ⟨[], []⟩).errors.isEmpty
  · simp [validate, h, List.isEmpty_iff]
  · simp [validate, h]
    simpa [List.isEmpty_iff] using h

/-- C2: the archive built by `package_skill` consists of exactly the regular
files below the skill directory — no file dropped, no extra entry — and each
entry is the file's path relative to the parent of the skill directory, so its
first segment is the skill directory's own name. -/
theorem C2_package_skill_exact_files (skillName : String) (entries : List FsEntry) :
    (∀ e ∈ entries, e.isFile = true →
      skillName :: e.relPath ∈ package_skill skillName entries) ∧
    (∀ a ∈ package_skill skillName entries,
      a.head? = some skillName ∧ ∃ e ∈ entries, e.isFile = true ∧ a = skillName :: e.relPath) := by
  constructor
  · intro e he hf
    simp only [package_skill, List.mem_map, List.mem_filter]
    exact ⟨e, ⟨he, hf⟩, rfl⟩
  · intro a ha
    simp only [package_skill, List.mem_map, List.mem_filter] at ha
    obtain ⟨e, ⟨he, hf⟩, rfl⟩ := ha
    exact ⟨rfl, e, he, hf, rfl⟩

/-- C2 witness: a concrete instantiation of `C2_package_skill_exact_files`. -/
theorem C2_package_skill_exact_files_witness :
    (∀ e ∈ [FsEntry.mk ["SKILL.md"] true, FsEntry.mk ["scripts"] false],
      e.isFile = true →
      "foo" :: e.relPath ∈
        package_skill "foo" [FsEntry.mk ["SKILL.md"] true, FsEntry.mk ["scripts"] false]) ∧
    (∀ a ∈ package_skill "foo" [FsEntry.mk ["SKILL.md"] true, FsEntry.mk ["scripts"] false],
      a.head? = some "foo" ∧
      ∃ e ∈ [FsEntry.mk ["SKILL.md"] true, FsEntry.mk ["scripts"] false],
        e.isFile = true ∧ a = "foo" :: e.relPath) :=
  C2_package_skill_exact_files "foo" [FsEntry.mk ["SKILL.md"] true, FsEntry.mk ["scripts"] false]

/-- C7: a definition file whose content does not begin with the delimiter line
`---` followed by a newline makes frontmatter validation record exactly the
one fatal error `SKILL.md must start with '---' YAML frontmatter` and leave
the warnings untouched; every later frontmatter check is skipped. -/
theorem C7_missing_open_delimiter (parse : String → Except String YamlDoc)
    (d : SkillDir) (r : ValidationResult) (content : String)
    (hmd : d.skillMd = some content)
    (hstart : pyStartsWith content "---\n" = false) :
    validate_frontmatter parse d r =
      ⟨r.errors ++ ["SKILL.md must start with \x27---\x27 YAML frontmatter"],
        r.warnings⟩ := by
  simp [validate_frontmatter, hmd, hstart, ValidationResult.addError]

/-- C7 witness: concrete instantiation of `C7_missing_open_delimiter`. -/
theorem C7_missing_open_delimiter_witness :
    validate_frontmatter miniYamlParse ⟨some "name: x\n", true, true, []⟩ ⟨[], []⟩ =
      ⟨["SKILL.md must start with \x27---\x27 YAML frontmatter"], []⟩ :=
  C7_missing_open_delimiter miniYamlParse ⟨some "name: x\n", true, true, []⟩ ⟨[], []⟩
    "name: x\n" rfl (by decide)

/-- C8: when the `scripts` subdirectory exists, the script checker looks only
at the direct children that are regular files; it warns once that the
directory is empty when there are none, otherwise warns once for every such
file whose execute bit is unset, and it never touches the error list. -/
theorem C8_scripts_check (d : SkillDir) (r : ValidationResult)
    (hs : d.scriptsExists = true) :
    validate_scripts d r =
      ⟨r.errors,
        r.warnings ++
          (if (d.scriptsChildren.filter fun f => f.isFile).isEmpty then
            ["scripts/ directory is empty"]
          else
            ((d.scriptsChildren.filter fun f => f.isFile).filter
              fun f => !f.executable).map
              fun f => "Script not executable: " ++ f.name)⟩ := by
  by_cases he : (d.scriptsChildren.filter fun f => f.isFile).isEmpty
  · simp [validate_scripts, hs, he, ValidationResult.addWarning]
  · simp only [validate_scripts, hs, he, Bool.not_true, Bool.false_eq_true,
      if_false, scripts_foldl_spec]

/-- C8 witness: a `scripts` directory with one non-executable file and one
subdirectory yields exactly one warning naming the file, and no error. -/
theorem C8_scripts_check_witness :
    validate_scripts ⟨some "x", true, true,
        [⟨"run.sh", true, false⟩, ⟨"sub", false, false⟩]⟩ ⟨["e"], ["w"]⟩ =
      ⟨["e"], ["w"] ++
        (if (([⟨"run.sh", true, false⟩, ⟨"sub", false, false⟩] :
            List ScriptEntry).filter fun f => f.isFile).isEmpty then
          ["scripts/ directory is empty"]
        else
          ((([⟨"run.sh", true, false⟩, ⟨"sub", false, false⟩] :
            List ScriptEntry).filter fun f => f.isFile).filter
            fun f => !f.executable).map
            fun f => "Script not executable: " ++ f.name)⟩ :=
  C8_scripts_check ⟨some "x", true, true,
    [⟨"run.sh", true, false⟩, ⟨"sub", false, false⟩]⟩ ⟨["e"], ["w"]⟩ rfl

/-- C9: any skill name containing a character outside letters, digits,
hyphen, underscore makes the scaffolder exit with code 1 before creating the
output directory or the skill subtree, whether or not later I/O would have
failed. -/
theorem C9_scaffolder_rejects_bad_name (skillNameArg : String) (ioError : Bool)
    (h : ∃ c ∈ skillNameArg.data, allowedScaffoldChar c = false) :
    scaffolderMain skillNameArg ioError = ⟨1, false, false⟩ := by
  obtain ⟨c, hc, hbad⟩ := h
  have hranges : pyIsAlnumChar c = false ∧ c ≠ '-' ∧ c ≠ '_' := by
    simp only [allowedScaffoldChar, Bool.or_eq_false_iff, decide_eq_false_iff_not] at hbad
    exact ⟨hbad.1.1, hbad.1.2, hbad.2⟩
  have hlower : pyLowerChar c = c := by
    have hup : ('A' ≤ c && c ≤ 'Z') = false := by
      have := hranges.1
      simp only [pyIsAlnumChar, Bool.or_eq_false_iff] at this
      exact this.1.2
    simp [pyLowerChar, hup]
  have hmem : c ∈ (pyLower skillNameArg).data := by
    simp only [pyLower]
    exact List.mem_map.mpr ⟨c, hc, hlower⟩
  have hkept : c ∈ removeChars (pyLower skillNameArg).data ['-', '_'] := by
    simp only [removeChars, List.mem_filter]
    refine ⟨hmem, ?_⟩
    simp [hranges.2.1, hranges.2.2]
  have hfail : pyIsAlnum (removeChars (pyLower skillNameArg).data ['-', '_']) = false := by
    simp only [pyIsAlnum, Bool.and_eq_false_iff]
    right
    exact List.all_eq_false.mpr ⟨c, hkept, by simp [hranges.1]⟩
  simp [scaffolderMain, hfail]

/-- C9 witness: a name containing a space is rejected with exit code 1 and no
directory is created. -/
theorem suffix_of_append_right {l a b : List Char} (h : l <:+ a ++ b)
    (hl : l.length ≤ b.length) : l <:+ b := by
  obtain ⟨t, ht⟩ := h
  have hlen : t.length + l.length = a.length + b.length := by
    rw [← List.length_append, ht, List.length_append]
  refine ⟨t.drop a.length, ?_⟩
  have h2 : (t ++ l).drop a.length = (a ++ b).drop a.length := by rw [ht]
  rw [List.drop_append_eq_append_drop, List.drop_left] at h2
  have h0 : a.length - t.length = 0 := by omega
  rw [h0, List.drop_zero] at h2
  exact h2

theorem suffix_eq_drop {l u : List Char} (h : l <:+ u) :
    u.drop (u.length - l.length) = l := by
  obtain ⟨t, ht⟩ := h
  have hlen : t.length + l.length = u.length := by
    rw [← List.length_append, ht]
  have h1 : u.drop (u.length - l.length) = (t ++ l).drop t.length := by
    rw [ht]
    congr 1
    omega
  rw [h1, List.drop_left]

theorem miniYamlLines_cons_ok (line : List Char) (rest : List (List Char))
    (kv : String × YamlVal) (h : parseLine line = .ok (some kv)) :
    miniYamlLines (line :: rest) = (miniYamlLines rest).map fun es => kv :: es := by
  simp only [miniYamlLines, h]

theorem miniYamlLines_cons_err (line : List Char) (rest : List (List Char))
    (e : String) (h : parseLine line = .error e) :
    miniYamlLines (line :: rest) = .error e := by
  simp only [miniYamlLines, h]

theorem parseLine_name (n : String) (hsp : ' ' ∉ n.data) :
    parseLine ("name: ".data ++ n.data) = .ok (some ("name", .vStr n)) := by
  have hblank : (("name: ".data ++ n.data).all Char.isWhitespace) = false := by
    have hgr : "name: ".data ++ n.data = 'n' :: ("ame: ".data ++ n.data) := by
      have hd : "name: ".data = 'n' :: "ame: ".data := by decide
      rw [hd]
      rfl
    rw [hgr, List.all_cons]
    have hw : ('n'.isWhitespace) = false := by decide
    simp [hw]
  have hsf : splitFirst [':', ' '] ("name: ".data ++ n.data) =
      some ("name".data, n.data) := by
    have hgr : "name: ".data ++ n.data = "name".data ++ ([':', ' '] ++ n.data) := by
      have hd : "name: ".data = "name".data ++ [':', ' '] := by decide
      rw [hd, List.append_assoc]
    rw [hgr, splitFirst_append_of_no_occ _ _ _
        (no_occ_of_first_char_notin ':' [' '] _ _ (by decide)),
      splitFirst_sep_append _ _ (by decide)]
    simp
  have hnone : splitFirst [':', ' '] n.data = none := by
    cases hq : splitFirst [':', ' '] n.data with
    | none => rfl
    | some p => exact absurd (splitFirst_mem _ _ _ hq ' ' (by decide)) hsp
  simp only [parseLine, hblank, Bool.false_eq_true, if_false, hsf, hnone,
    Option.isSome_none, string_mk_data]

set_option maxRecDepth 20000 in
theorem c10_rest_no_occ : ∀ j,
    j < ("\ndescription: TODO: A clear description of what this skill does and when to use it\nlicense: MIT\n").data.length →
    ((['-', '-', '-', '\n'] : List Char).isPrefixOf
      (("\ndescription: TODO: A clear description of what this skill does and when to use it\nlicense: MIT\n").data.drop j ++
        ['-', '-', '-', '\n'])) = false := by
  decide

theorem c10_header_no_occ (n : String) (hnl : '\n' ∉ n.data)
    (hsuf1 : ¬(['-', '-', '-'] <:+ ("name: ".data ++ n.data))) (w : List Char) :
    ∀ i, i < (skillMdHeader n).data.length →
      ((['-', '-', '-', '\n'] : List Char).isPrefixOf
        ((skillMdHeader n).data.drop i ++ (['-', '-', '-', '\n'] ++ w))) = false := by
  have hdata : (skillMdHeader n).data = ("name: ".data ++ n.data) ++
      ("\ndescription: TODO: A clear description of what this skill does and when to use it\nlicense: MIT\n").data := by
    unfold skillMdHeader
    rw [String.data_append, String.data_append]
  have hnlu : '\n' ∉ "name: ".data ++ n.data := by
    intro hm
    rcases List.mem_append.mp hm with h | h
    · exact absurd h (by decide)
    · exact hnl h
  intro i hi
  rw [hdata] at hi ⊢
  rw [List.drop_append_eq_append_drop]
  by_cases hcase : i < ("name: ".data ++ n.data).length
  · have h0 : i - ("name: ".data ++ n.data).length = 0 := by omega
    rw [h0, List.drop_zero, List.append_assoc]
    have hrest : ("\ndescription: TODO: A clear description of what this skill does and when to use it\nlicense: MIT\n").data =
        '\n' :: ("description: TODO: A clear description of what this skill does and when to use it\nlicense: MIT\n").data := by
      decide
    rw [hrest, List.cons_append]
    exact no_delim_occ_of_newline _ _ hnlu hsuf1 i hcase
  · have hju : ("name: ".data ++ n.data).length ≤ i := by omega
    rw [List.drop_eq_nil_of_le hju, List.nil_append]
    have hjlt : i - ("name: ".data ++ n.data).length <
        ("\ndescription: TODO: A clear description of what this skill does and when to use it\nlicense: MIT\n").data.length := by
      rw [List.length_append] at hi
      omega
    rw [← List.append_assoc]
    rw [isPrefixOf_append_left _ _ _ (by
      rw [List.length_append]
      simp)]
    exact c10_rest_no_occ _ hjlt

theorem c10_split (n disp : String) (hnl : '\n' ∉ n.data)
    (hsuf1 : ¬(['-', '-', '-'] <:+ ("name: ".data ++ n.data))) :
    pySplit (SKILL_MD_TEMPLATE n disp) "---\n" 2 =
      ["", skillMdHeader n, skillMdBody disp] := by
  unfold SKILL_MD_TEMPLATE
  exact pySplit_delimited _ _ (fun i hi => c10_header_no_occ n hnl hsuf1 _ i hi)

theorem c10_parse_error (n : String) (hnl : '\n' ∉ n.data)
    (hsp : ' ' ∉ n.data) :
    miniYamlParse (skillMdHeader n) = .error "mapping values are not allowed here" := by
  have hdata : (skillMdHeader n).data = ("name: ".data ++ n.data) ++
      '\n' :: ("description: TODO: A clear description of what this skill does and when to use it\nlicense: MIT\n").data := by
    unfold skillMdHeader
    rw [String.data_append, String.data_append]
  have hnlu : '\n' ∉ "name: ".data ++ n.data := by
    intro hm
    rcases List.mem_append.mp hm with h | h
    · exact absurd h (by decide)
    · exact hnl h
  have hlines2 : splitOnNl
      ("description: TODO: A clear description of what this skill does and when to use it\nlicense: MIT\n").data =
      [("description: TODO: A clear description of what this skill does and when to use it").data,
        "license: MIT".data, []] := by
    decide
  have hlines : splitOnNl (skillMdHeader n).data =
      ("name: ".data ++ n.data) ::
        [("description: TODO: A clear description of what this skill does and when to use it").data,
          "license: MIT".data, []] := by
    rw [hdata, splitOnNl_append _ _ hnlu, hlines2]
  have hline2 : parseLine
      ("description: TODO: A clear description of what this skill does and when to use it").data =
      .error "mapping values are not allowed here" := by
    decide
  unfold miniYamlParse
  rw [hlines, miniYamlLines_cons_ok _ _ _ (parseLine_name n hsp),
    miniYamlLines_cons_err _ _ _ hline2]
  rfl

theorem validate_frontmatter_parse_error (parse : String → Except String YamlDoc)
    (d : SkillDir) (r : ValidationResult) (content fmtext body e : String)
    (hmd : d.skillMd = some content)
    (hstart : pyStartsWith content "---\n" = true)
    (hsplit : pySplit content "---\n" 2 = ["", fmtext, body])
    (hparse : parse fmtext = .error e) :
    validate_frontmatter parse d r =
      r.addError ("Invalid YAML in frontmatter: " ++ e) := by
  simp [validate_frontmatter, hmd, hstart, hsplit, hparse]

theorem C9_scaffolder_rejects_bad_name_witness :
    scaffolderMain "bad name" false = ⟨1, false, false⟩ :=
  C9_scaffolder_rejects_bad_name "bad name" false ⟨' ', by decide, by decide⟩

/-- C4: a definition file whose content begins with the delimiter line but
contains fewer than two occurrences of it (frontmatter never closed) makes
frontmatter validation record exactly the one fatal error about the
unclosed frontmatter, leave the warnings untouched, and skip every further
frontmatter check. -/
theorem C4_unclosed_frontmatter (parse : String → Except String YamlDoc)
    (d : SkillDir) (r : ValidationResult) (content : String)
    (hmd : d.skillMd = some content)
    (hstart : pyStartsWith content "---\n" = true)
    (hcnt : countOcc "---\n".data content.data < 2) :
    validate_frontmatter parse d r =
      ⟨r.errors ++ ["SKILL.md frontmatter not properly closed with \x27---\x27"],
        r.warnings⟩ := by
  have hdata : "---\n".data = ['-', '-', '-', '\n'] := by decide
  have hpre : (['-', '-', '-', '\n'] : List Char).isPrefixOf content.data = true := by
    rw [← hdata]
    exact hstart
  have hne : content.data ≠ [] := by
    intro h0
    rw [h0] at hpre
    exact absurd hpre (by decide)
  have hlen4 : 4 ≤ content.data.length := by
    have h := length_le_of_isPrefixOf hpre
    simpa using h
  have hsf : splitFirst ['-', '-', '-', '\n'] content.data =
      some ([], content.data.drop 4) := splitFirst_of_isPrefixOf _ _ hne hpre
  have hcnt0 : countOccAux ['-', '-', '-', '\n'] (content.data.length - 1)
      (content.data.drop 4) = 0 := by
    unfold countOcc at hcnt
    rw [hdata] at hcnt
    obtain ⟨m, hm⟩ : ∃ m, content.data.length = m + 1 := ⟨content.data.length - 1, by omega⟩
    rw [hm] at hcnt
    simp only [countOccAux, hsf] at hcnt
    have hm' : m = content.data.length - 1 := by omega
    subst hm'
    omega
  have hnone : splitFirst ['-', '-', '-', '\n'] (content.data.drop 4) = none := by
    obtain ⟨m, hm⟩ : ∃ m, content.data.length - 1 = m + 1 :=
      ⟨content.data.length - 2, by omega⟩
    rw [hm] at hcnt0
    cases hsp : splitFirst ['-', '-', '-', '\n'] (content.data.drop 4) with
    | none => rfl
    | some p =>
      obtain ⟨pre, post⟩ := p
      simp only [countOccAux, hsp] at hcnt0
      omega
  have hparts : pySplit content "---\n" 2 = ["", String.mk (content.data.drop 4)] := by
    simp [pySplit, hdata, pySplitAux, hsf, hnone]
  simp [validate_frontmatter, hmd, hstart, hparts, ValidationResult.addError]

/-- C4 witness: concrete instantiation of `C4_unclosed_frontmatter`. -/
theorem C4_unclosed_frontmatter_witness :
    validate_frontmatter miniYamlParse ⟨some "---\nname: x\n", true, true, []⟩
        ⟨[], ["w"]⟩ =
      ⟨["SKILL.md frontmatter not properly closed with \x27---\x27"], ["w"]⟩ :=
  C4_unclosed_frontmatter miniYamlParse ⟨some "---\nname: x\n", true, true, []⟩
    ⟨[], ["w"]⟩ "---\nname: x\n" rfl (by decide) (by decide)

/-- C5 counterexample: the name `-` is non-empty, within the length bound and
made only of allowed characters (it is a single hyphen), yet the `name` field
checks record a fatal charset error — because deleting the hyphens,
underscores and dots leaves the empty string and Python's `isalnum` is false
on it.  This refutes the no-error direction of the claim. -/
theorem C5_counterexample :
    ("-" : String) ≠ "" ∧ ("-" : String).length ≤ 64 ∧
    (∀ c ∈ ("-" : String).data, allowedNameChar c = true) ∧
    (name_field_check [("name", .vStr "-")] ⟨[], []⟩).errors =
      ["\x27name\x27 must contain only letters, numbers, hyphens, underscores, dots"] := by
  decide

/-- C5 (amended): a `name` of at most 64 allowed characters passes the field
checks without error provided it contains at least one letter or digit;
and any non-empty `name` of at most 64 characters containing a character
outside the allowed set gets exactly the fatal charset error appended. -/
theorem C5_name_charset_amended :
    (∀ (fm : List (String × YamlVal)) (r : ValidationResult) (s : String),
      pyLookup fm "name" = some (.vStr s) → s ≠ "" → s.length ≤ 64 →
      (∀ c ∈ s.data, allowedNameChar c = true) →
      (∃ c ∈ s.data, pyIsAlnumChar c = true) →
      name_field_check fm r = r) ∧
    (∀ (fm : List (String × YamlVal)) (r : ValidationResult) (s : String),
      pyLookup fm "name" = some (.vStr s) → s ≠ "" → s.length ≤ 64 →
      (∃ c ∈ s.data, allowedNameChar c = false) →
      name_field_check fm r =
        r.addError "\x27name\x27 must contain only letters, numbers, hyphens, underscores, dots") := by
  constructor
  · intro fm r s hl hne hlen hall hex
    obtain ⟨c, hc, hcal⟩ := hex
    have h1 : c ≠ '-' := fun he => by rw [he] at hcal; exact absurd hcal (by decide)
    have h2 : c ≠ '_' := fun he => by rw [he] at hcal; exact absurd hcal (by decide)
    have h3 : c ≠ '.' := fun he => by rw [he] at hcal; exact absurd hcal (by decide)
    have hmemf : c ∈ removeChars s.data ['-', '_', '.'] := by
      simp only [removeChars, List.mem_filter]
      exact ⟨hc, by simp [h1, h2, h3]⟩
    have hnonempty : (removeChars s.data ['-', '_', '.']).isEmpty = false := by
      rw [Bool.eq_false_iff]
      intro hemp
      rw [List.isEmpty_iff] at hemp
      rw [hemp] at hmemf
      exact absurd hmemf (List.not_mem_nil c)
    have hallf : (removeChars s.data ['-', '_', '.']).all pyIsAlnumChar = true := by
      rw [List.all_eq_true]
      intro x hx
      rcases List.mem_filter.mp hx with ⟨hxs, hxn⟩
      have hax := hall x hxs
      simp only [Bool.not_eq_true'] at hxn
      simp at hxn
      simp only [allowedNameChar, Bool.or_eq_true, decide_eq_true_eq] at hax
      rcases hax with ((h | h) | h) | h
      · exact h
      · exact absurd h hxn.1
      · exact absurd h hxn.2.1
      · exact absurd h hxn.2.2
    have hok : pyIsAlnum (removeChars s.data ['-', '_', '.']) = true := by
      simp [pyIsAlnum, hnonempty, hallf]
    simp only [name_field_check, hl]
    rw [if_neg hne, if_neg (by omega : ¬s.length > 64), if_neg (by simp [hok])]
  · intro fm r s hl hne hlen hex
    obtain ⟨c, hc, hbad⟩ := hex
    have hparts : pyIsAlnumChar c = false ∧ c ≠ '-' ∧ c ≠ '_' ∧ c ≠ '.' := by
      simp only [allowedNameChar, Bool.or_eq_false_iff, decide_eq_false_iff_not] at hbad
      exact ⟨hbad.1.1.1, hbad.1.1.2, hbad.1.2, hbad.2⟩
    have hmemf : c ∈ removeChars s.data ['-', '_', '.'] := by
      simp only [removeChars, List.mem_filter]
      exact ⟨hc, by simp [hparts.2.1, hparts.2.2.1, hparts.2.2.2]⟩
    have hfail : pyIsAlnum (removeChars s.data ['-', '_', '.']) = false := by
      simp only [pyIsAlnum, Bool.and_eq_false_iff]
      right
      exact List.all_eq_false.mpr ⟨c, hmemf, by simp [hparts.1]⟩
    simp only [name_field_check, hl]
    rw [if_neg hne, if_neg (by omega : ¬s.length > 64), if_pos (by simp [hfail])]

/-- C5 witness: concrete instantiations of both directions of
`C5_name_charset_amended`. -/
theorem C5_name_charset_amended_witness :
    name_field_check [("name", .vStr "my-skill.v2")] ⟨[], []⟩ = ⟨[], []⟩ ∧
    name_field_check [("name", .vStr "a b")] ⟨[], []⟩ =
      ValidationResult.addError ⟨[], []⟩
        "\x27name\x27 must contain only letters, numbers, hyphens, underscores, dots" :=
  ⟨C5_name_charset_amended.1 [("name", .vStr "my-skill.v2")] ⟨[], []⟩ "my-skill.v2"
      rfl (by decide) (by decide) (by decide) ⟨'m', by decide, by decide⟩,
    C5_name_charset_amended.2 [("name", .vStr "a b")] ⟨[], []⟩ "a b"
      rfl (by decide) (by decide) ⟨' ', by decide, by decide⟩⟩

/-- C3: a definition file with well-formed, parseable frontmatter whose
fields are valid except that `name` is a string of length 65 yields exactly
one fatal error, that error reports the length 65 (the charset check is
short-circuited), and the overall verdict is failure. -/
theorem C3_name_length_65 (parse : String → Except String YamlDoc) (d : SkillDir)
    (content fmtext body : String) (fm : List (String × YamlVal)) (s dsc : String)
    (hmd : d.skillMd = some content)
    (hstart : pyStartsWith content "---\n" = true)
    (hsplit : pySplit content "---\n" 2 = ["", fmtext, body])
    (hparse : parse fmtext = .ok (.dict fm))
    (hname : pyLookup fm "name" = some (.vStr s))
    (hslen : s.length = 65)
    (hdesc : pyLookup fm "description" = some (.vStr dsc))
    (hdne : dsc ≠ "") (hdlen : dsc.length ≤ 1024) :
    (validate parse d).1 = false ∧
    (validate parse d).2.errors = ["\x27name\x27 too long (max 64 chars): 65"] := by
  have hsne : s ≠ "" := by
    intro he
    rw [he] at hslen
    exact absurd hslen (by decide)
  have hnc : name_field_check fm ⟨[], []⟩ =
      ValidationResult.addError ⟨[], []⟩
        ("\x27name\x27 too long (max 64 chars): " ++ toString s.length) := by
    simp only [name_field_check, hname]
    rw [if_neg hsne, if_pos (by omega : s.length > 64)]
  have hmsg : ("\x27name\x27 too long (max 64 chars): " ++ toString s.length) =
      "\x27name\x27 too long (max 64 chars): 65" := by
    rw [hslen]
    decide
  obtain ⟨ws, hvfm, -⟩ :=
    validate_frontmatter_dict parse d ⟨[], []⟩ content fmtext body fm hmd hstart
      hsplit hparse
  have herr : (validate_scripts d (check_directory_structure d
      (validate_frontmatter parse d ⟨[], []⟩))).errors =
      ["\x27name\x27 too long (max 64 chars): 65"] := by
    rw [errors_validate_scripts, errors_check_directory_structure, hvfm]
    show (description_field_check fm (name_field_check fm ⟨[], []⟩)).errors = _
    rw [(description_field_check_valid fm (name_field_check fm ⟨[], []⟩) dsc hdesc
        hdne (by omega)).1, hnc]
    simp [ValidationResult.addError, hmsg]
  rw [validate_of_skillMd parse d content hmd]
  constructor
  · simp [herr]
  · simpa using herr

set_option maxRecDepth 40000 in
/-- C3 witness: a concrete definition file whose `name` has 65 characters. -/
theorem C3_name_length_65_witness :
    (validate miniYamlParse
      ⟨some ("---\nname: " ++ String.mk (List.replicate 65 'a') ++
        "\ndescription: ok\n---\nbody"), true, true, []⟩).1 = false ∧
    (validate miniYamlParse
      ⟨some ("---\nname: " ++ String.mk (List.replicate 65 'a') ++
        "\ndescription: ok\n---\nbody"), true, true, []⟩).2.errors =
      ["\x27name\x27 too long (max 64 chars): 65"] :=
  C3_name_length_65 miniYamlParse
    ⟨some ("---\nname: " ++ String.mk (List.replicate 65 'a') ++
      "\ndescription: ok\n---\nbody"), true, true, []⟩
    ("---\nname: " ++ String.mk (List.replicate 65 'a') ++
      "\ndescription: ok\n---\nbody")
    ("name: " ++ String.mk (List.replicate 65 'a') ++ "\ndescription: ok\n")
    "body"
    [("name", .vStr (String.mk (List.replicate 65 'a'))), ("description", .vStr "ok")]
    (String.mk (List.replicate 65 'a')) "ok"
    rfl (by decide) (by decide) (by decide) (by decide) (by decide) (by decide)
    (by decide) (by decide)

/-- C6: a definition file with valid frontmatter, `description` of exactly
1024 characters and a body equal to the placeholder marker validates with
zero fatal errors and at least one warning, so the packager proceeds and
produces the archive. -/
theorem C6_placeholder_body_still_packages (parse : String → Except String YamlDoc)
    (d : SkillDir) (skillName : String) (entries : List FsEntry)
    (content fmtext body : String) (fm : List (String × YamlVal)) (s dsc : String)
    (hmd : d.skillMd = some content)
    (hstart : pyStartsWith content "---\n" = true)
    (hsplit : pySplit content "---\n" 2 = ["", fmtext, body])
    (hparse : parse fmtext = .ok (.dict fm))
    (hname : pyLookup fm "name" = some (.vStr s))
    (hsne : s ≠ "") (hslen : s.length ≤ 64)
    (hscs : pyIsAlnum (removeChars s.data ['-', '_', '.']) = true)
    (hdesc : pyLookup fm "description" = some (.vStr dsc))
    (hdlen : dsc.length = 1024)
    (hbody : pyStrip body = "TODO:") :
    (validate parse d).2.errors = [] ∧
    1 ≤ (validate parse d).2.warnings.length ∧
    (validate parse d).1 = true ∧
    packager_main parse d skillName entries = some (package_skill skillName entries) := by
  have hdne : dsc ≠ "" := by
    intro he
    rw [he] at hdlen
    exact absurd hdlen (by decide)
  have hnc : name_field_check fm ⟨[], []⟩ = ⟨[], []⟩ := by
    simp only [name_field_check, hname]
    rw [if_neg hsne, if_neg (by omega : ¬s.length > 64), if_neg (by simp [hscs])]
  obtain ⟨ws, hvfm, hws⟩ :=
    validate_frontmatter_dict parse d ⟨[], []⟩ content fmtext body fm hmd hstart
      hsplit hparse
  have hws1 : ws = ["SKILL.md content contains TODO placeholders"] := hws hbody
  have herr : (validate_scripts d (check_directory_structure d
      (validate_frontmatter parse d ⟨[], []⟩))).errors = [] := by
    rw [errors_validate_scripts, errors_check_directory_structure, hvfm]
    show (description_field_check fm (name_field_check fm ⟨[], []⟩)).errors = _
    rw [(description_field_check_valid fm (name_field_check fm ⟨[], []⟩) dsc hdesc
        hdne (by omega)).1, hnc]
  have hwarn : 1 ≤ (validate_scripts d (check_directory_structure d
      (validate_frontmatter parse d ⟨[], []⟩))).warnings.length := by
    have h1 : 1 ≤ (validate_frontmatter parse d ⟨[], []⟩).warnings.length := by
      rw [hvfm, hws1]
      simp
    exact le_trans h1 (le_trans
      (warnings_check_directory_structure_le d _)
      (warnings_validate_scripts_le d _))
  have hfst : (validate parse d).1 = true := by
    rw [validate_of_skillMd parse d content hmd]
    simp [herr]
  refine ⟨?_, ?_, hfst, ?_⟩
  · rw [validate_of_skillMd parse d content hmd]
    simpa using herr
  · rw [validate_of_skillMd parse d content hmd]
    simpa using hwarn
  · simp [packager_main, hfst]

theorem pyStartsWith_delimited (fmtext body : String) :
    pyStartsWith ("---\n" ++ fmtext ++ "---\n" ++ body) "---\n" = true := by
  simp only [pyStartsWith, String.data_append, List.append_assoc]
  rw [List.isPrefixOf_iff_prefix]
  exact List.prefix_append _ _

theorem string_data_mk (l : List Char) : (String.mk l).data = l := rfl

theorem mem_xs1024 {c : Char} (h : c ∈ xs1024) : c = 'x' := by
  rw [xs1024] at h
  exact List.eq_of_mem_replicate h

theorem c6_fmtext_no_dash :
    '-' ∉ ("name: ok\ndescription: " ++ String.mk (xs1024) ++ "\n").data := by
  intro hmem
  simp only [String.data_append, string_data_mk] at hmem
  rcases List.mem_append.mp hmem with h | h
  · rcases List.mem_append.mp h with h2 | h2
    · exact absurd h2 (by decide)
    · exact absurd (mem_xs1024 h2) (by decide)
  · exact absurd h (by decide)

theorem c6_hsplit :
    pySplit ("---\n" ++ ("name: ok\ndescription: " ++ String.mk (xs1024) ++ "\n") ++
        "---\n" ++ "TODO:") "---\n" 2 =
      ["", "name: ok\ndescription: " ++ String.mk (xs1024) ++ "\n", "TODO:"] :=
  pySplit_delimited _ _
    (no_occ_of_first_char_notin '-' ['-', '-', '\n'] _ _ c6_fmtext_no_dash)

theorem c6_line2 :
    parseLine ("description: ".data ++ xs1024) =
      .ok (some ("description", .vStr (String.mk (xs1024)))) := by
  have hblank : (("description: ".data ++ xs1024).all Char.isWhitespace) = false := by
    have hgr : "description: ".data ++ xs1024 =
        'd' :: ("escription: ".data ++ xs1024) := by
      have hd : "description: ".data = 'd' :: "escription: ".data := by decide
      rw [hd]
      rfl
    rw [hgr, List.all_cons]
    have hw : ('d'.isWhitespace) = false := by decide
    simp [hw]
  have hsf : splitFirst [':', ' '] ("description: ".data ++ xs1024) =
      some ("description".data, xs1024) := by
    have hgr : "description: ".data ++ xs1024 =
        "description".data ++ ([':', ' '] ++ xs1024) := by
      have hd : "description: ".data = "description".data ++ [':', ' '] := by decide
      rw [hd, List.append_assoc]
    rw [hgr, splitFirst_append_of_no_occ _ _ _
        (no_occ_of_first_char_notin ':' [' '] _ _ (by decide)),
      splitFirst_sep_append _ _ (by decide)]
    simp
  have hnone : splitFirst [':', ' '] (xs1024) = none := by
    cases hq : splitFirst [':', ' '] (xs1024) with
    | none => rfl
    | some p =>
      have hm := splitFirst_mem _ _ _ hq ':' (by decide)
      exact absurd (mem_xs1024 hm) (by decide)
  simp only [parseLine, hblank, Bool.false_eq_true, if_false, hsf, hnone,
    Option.isSome_none, string_mk_data]

theorem c6_line2x :
    parseLine (['d', 'e', 's', 'c', 'r', 'i', 'p', 't', 'i', 'o', 'n', ':', ' '] ++ xs1024) =
      .ok (some ("description", .vStr (String.mk xs1024))) := by
  have he : (['d', 'e', 's', 'c', 'r', 'i', 'p', 't', 'i', 'o', 'n', ':', ' '] : List Char) =
      "description: ".data := by decide
  rw [he]
  exact c6_line2

theorem c6_hparse :
    miniYamlParse ("name: ok\ndescription: " ++ String.mk (xs1024) ++ "\n") =
      .ok (.dict [("name", .vStr "ok"),
        ("description", .vStr (String.mk (xs1024)))]) := by
  have hdata1 : ("name: ok\ndescription: " ++ String.mk (xs1024) ++ "\n").data =
      "name: ok".data ++ '\n' :: ("description: ".data ++ xs1024 ++ ['\n']) := by
    simp only [String.data_append, string_data_mk]
    simp [List.append_assoc]
  have hlines : splitOnNl (("name: ok\ndescription: " ++ String.mk (xs1024) ++ "\n").data) =
      ["name: ok".data, "description: ".data ++ xs1024, []] := by
    rw [hdata1, splitOnNl_append _ _ (by decide : '\n' ∉ "name: ok".data)]
    have hgr : "description: ".data ++ xs1024 ++ ['\n'] =
        ("description: ".data ++ xs1024) ++ '\n' :: [] := by
      simp
    rw [hgr, splitOnNl_append _ _ ?hnl]
    · rfl
    case hnl =>
      intro hm
      rcases List.mem_append.mp hm with h | h
      · exact absurd h (by decide)
      · exact absurd (mem_xs1024 h) (by decide)
  have hline1 : parseLine "name: ok".data = .ok (some ("name", YamlVal.vStr "ok")) := by
    decide
  have hline3 : parseLine ([] : List Char) = .ok none := by decide
  have hml : miniYamlLines ["name: ok".data, "description: ".data ++ xs1024, []] =
      .ok [("name", YamlVal.vStr "ok"),
        ("description", YamlVal.vStr (String.mk xs1024))] := by
    simp only [miniYamlLines, hline1, c6_line2, c6_line2x, hline3, Except.map]
  unfold miniYamlParse
  rw [hlines, hml]

theorem c6_big_length : (String.mk (xs1024)).length = 1024 := by
  show xs1024.length = 1024
  rw [xs1024, List.length_replicate]

set_option maxRecDepth 4000 in
/-- C6 witness: a concrete skill with a 1024-character description and the
body `TODO:` validates with a warning and is packaged. -/
theorem C6_placeholder_body_still_packages_witness :
    (validate miniYamlParse
      ⟨some ("---\n" ++ ("name: ok\ndescription: " ++ String.mk (xs1024) ++ "\n") ++
        "---\n" ++ "TODO:"), true, true, []⟩).2.errors = [] ∧
    1 ≤ (validate miniYamlParse
      ⟨some ("---\n" ++ ("name: ok\ndescription: " ++ String.mk (xs1024) ++ "\n") ++
        "---\n" ++ "TODO:"), true, true, []⟩).2.warnings.length ∧
    (validate miniYamlParse
      ⟨some ("---\n" ++ ("name: ok\ndescription: " ++ String.mk (xs1024) ++ "\n") ++
        "---\n" ++ "TODO:"), true, true, []⟩).1 = true ∧
    packager_main miniYamlParse
      ⟨some ("---\n" ++ ("name: ok\ndescription: " ++ String.mk (xs1024) ++ "\n") ++
        "---\n" ++ "TODO:"), true, true, []⟩ "foo" [⟨["SKILL.md"], true⟩] =
      some (package_skill "foo" [⟨["SKILL.md"], true⟩]) :=
  C6_placeholder_body_still_packages miniYamlParse
    ⟨some ("---\n" ++ ("name: ok\ndescription: " ++ String.mk (xs1024) ++ "\n") ++
      "---\n" ++ "TODO:"), true, true, []⟩ "foo" [⟨["SKILL.md"], true⟩]
    ("---\n" ++ ("name: ok\ndescription: " ++ String.mk (xs1024) ++ "\n") ++
      "---\n" ++ "TODO:")
    ("name: ok\ndescription: " ++ String.mk (xs1024) ++ "\n")
    "TODO:"
    [("name", .vStr "ok"), ("description", .vStr (String.mk (xs1024)))]
    "ok" (String.mk (xs1024))
    rfl (pyStartsWith_delimited _ _) c6_hsplit c6_hparse
    (by simp [pyLookup]) (by decide) (by decide) (by decide)
    (by simp [pyLookup]) c6_big_length (by decide)

/-- C10 (amended): for every skill name the scaffolder accepts whose
lowercased form does not end in three hyphens, the emitted `SKILL.md` fails
the validator's structured parse — the unquoted second colon in the
`description:` template line is a YAML error — so validation records exactly
the one fatal YAML error and the scaffold output does not validate as-is.
(The external YAML parser is modelled by `miniYamlParse`.) -/
theorem C10_scaffolded_skill_fails_validation (skillNameArg : String)
    (hacc : pyIsAlnum (removeChars (pyLower skillNameArg).data ['-', '_']) = true)
    (hsuf : ¬(['-', '-', '-'] <:+ (pyLower skillNameArg).data)) :
    (validate miniYamlParse (scaffoldedSkillDir skillNameArg)).1 = false ∧
    (validate miniYamlParse (scaffoldedSkillDir skillNameArg)).2.errors =
      ["Invalid YAML in frontmatter: mapping values are not allowed here"] := by
  set n := pyLower skillNameArg with hn
  have hchars : ∀ c ∈ n.data, allowedScaffoldChar c = true := by
    intro c hc
    by_cases hin : c = '-' ∨ c = '_'
    · rcases hin with h | h <;> rw [h] <;> decide
    · push_neg at hin
      have hmem : c ∈ removeChars n.data ['-', '_'] := by
        simp only [removeChars, List.mem_filter]
        exact ⟨hc, by simp [hin.1, hin.2]⟩
      have hall : (removeChars n.data ['-', '_']).all pyIsAlnumChar = true := by
        have hacc' := hacc
        simp only [pyIsAlnum, Bool.and_eq_true] at hacc'
        exact hacc'.2
      have hcc := (List.all_eq_true.mp hall) c hmem
      simp [allowedScaffoldChar, hcc]
  have hnl : '\n' ∉ n.data := by
    intro hm
    exact absurd (hchars _ hm) (by decide)
  have hsp : ' ' ∉ n.data := by
    intro hm
    exact absurd (hchars _ hm) (by decide)
  have hne : n.data ≠ [] := by
    intro h0
    rw [h0] at hacc
    exact absurd hacc (by decide)
  have hsuf1 : ¬(['-', '-', '-'] <:+ ("name: ".data ++ n.data)) := by
    intro hsfx
    by_cases h3 : 3 ≤ n.data.length
    · exact hsuf (suffix_of_append_right hsfx (by simpa using h3))
    · have hdrop := suffix_eq_drop hsfx
      rcases hd : n.data with _ | ⟨c1, _ | ⟨c2, t2⟩⟩
      · exact hne hd
      · rw [hd] at hdrop
        simp at hdrop
      · have ht2 : t2 = [] := by
          rw [hd] at h3
          simp only [List.length_cons] at h3
          exact List.eq_nil_of_length_eq_zero (by omega)
        subst ht2
        rw [hd] at hdrop
        simp at hdrop
  have hmd : (scaffoldedSkillDir skillNameArg).skillMd =
      some (SKILL_MD_TEMPLATE n (skillDisplayName n)) := rfl
  have hstart : pyStartsWith (SKILL_MD_TEMPLATE n (skillDisplayName n)) "---\n" = true := by
    unfold SKILL_MD_TEMPLATE
    exact pyStartsWith_delimited _ _
  have hvfm : validate_frontmatter miniYamlParse (scaffoldedSkillDir skillNameArg) ⟨[], []⟩ =
      ValidationResult.addError ⟨[], []⟩
        ("Invalid YAML in frontmatter: " ++ "mapping values are not allowed here") :=
    validate_frontmatter_parse_error miniYamlParse _ _ _ _ _ _ hmd hstart
      (c10_split n (skillDisplayName n) hnl hsuf1) (c10_parse_error n hnl hsp)
  have hdir : ∀ r, check_directory_structure (scaffoldedSkillDir skillNameArg) r = r := by
    intro r
    simp [check_directory_structure, scaffoldedSkillDir]
  have hscr : ∀ r, validate_scripts (scaffoldedSkillDir skillNameArg) r = r := by
    intro r
    simp [validate_scripts, scaffoldedSkillDir, scripts_foldl_spec]
  rw [validate_of_skillMd miniYamlParse _ _ hmd]
  constructor <;> simp [hvfm, hdir, hscr, ValidationResult.addError]

set_option maxRecDepth 20000 in
/-- C10 witness: the scaffold of `my-skill` fails validation with exactly the
fatal YAML error. -/
theorem C10_scaffolded_skill_fails_validation_witness :
    (validate miniYamlParse (scaffoldedSkillDir "my-skill")).1 = false ∧
    (validate miniYamlParse (scaffoldedSkillDir "my-skill")).2.errors =
      ["Invalid YAML in frontmatter: mapping values are not allowed here"] :=
  C10_scaffolded_skill_fails_validation "my-skill" (by decide)
    (fun h => absurd (suffix_eq_drop h) (by decide))

set_option maxRecDepth 20000 in
/-- C10 counterexample: the name `a---` is accepted by the scaffolder, yet
validating its freshly scaffolded skill records a missing-`description`
fatal error and no YAML parse error at all — the name's trailing hyphens
followed by the template newline form an extra `---` delimiter line, so the
frontmatter closes right after the `name:` line and parses cleanly.  This
refutes the claim that every accepted name leads to a fatal YAML parse
error. -/
theorem C10_counterexample :
    pyIsAlnum (removeChars (pyLower "a---").data ['-', '_']) = true ∧
    (validate miniYamlParse (scaffoldedSkillDir "a---")).2.errors =
      ["Frontmatter missing required \x27description\x27 field"] ∧
    ((validate miniYamlParse (scaffoldedSkillDir "a---")).2.errors.all
      fun e => !pyStartsWith e "Invalid YAML in frontmatter:") = true := by
  decide
